import Mathlib

/-!
Verification of the MLB schedule-fetching job (`mlb_fetch_schedule.py`)
against its natural-language specification.

The file is a shallow embedding of the program: the pure transformation
logic is translated into executable Lean definitions, network and
filesystem effects are parameterized by their outcomes (`Except`-valued
inputs), and Python exceptions are modelled by the `PyErr` type.
Python `dict`s with an optional key are modelled with `Option` (`none`
means the key is absent, not that it is bound to `null`).
-/

set_option autoImplicit false
set_option maxHeartbeats 1000000

namespace MLBFetch

/-- Python `str.lower`, used by the team-name comparison on line 74.
Mapping `Char.toLower` over the characters lowercases the ASCII range,
which covers every MLB team name; all theorems below are parametric in
this function. -/
def pyLower (s : String) : String := ⟨s.data.map Char.toLower⟩

/-- One element of the odds-API response consumed by `fetch_events`
(lines 80-100).  The join on lines 73-75 reads only `home_team` and
`id`; `away_team` and `commence_time` are carried along to express that
they are irrelevant to the join. -/
structure OddsEvent where
  id : String
  home_team : String
  away_team : String
  commence_time : String
  deriving DecidableEq

/-- One game of the schedule response.  `process_game_data` reads the
paths `game["gameDate"]`, `game["teams"]["away"]["team"]["name"]`,
`game["teams"]["home"]["team"]["name"]` and `game["venue"]["name"]`
(lines 64-70); the JSON nesting carries no logic, so each path is
flattened to one field. -/
structure ScheduleGame where
  gameDate : String
  away_team_name : String
  home_team_name : String
  venue_name : String
  deriving DecidableEq

/-- One entry of the `dates` list of the schedule response; line 56
reads `.get("games", [])`, so a missing `games` key is the empty list. -/
structure DateEntry where
  games : List ScheduleGame
  deriving DecidableEq

/-- The schedule response body; line 56 reads `data.get("dates", [])`,
so a missing `dates` key is the empty list. -/
structure ScheduleData where
  dates : List DateEntry
  deriving DecidableEq

/-- The Python exceptions that can cross the stages of this program:
`IndexError` from `dates[0]` (line 56), `ValueError` from
`datetime.strptime` (line 128), HTTP errors from the two fetches, and
storage errors from the delete/save/upload steps.  All are subclasses
of `Exception`, the class caught on line 170. -/
inductive PyErr where
  | indexError
  | valueError (msg : String)
  | httpError (msg : String)
  | storageError (msg : String)
  deriving DecidableEq

/-- `str(e)` for the modelled exceptions, as printed on line 171. -/
def PyErr.message : PyErr → String
  | .indexError => "list index out of range"
  | .valueError m => m
  | .httpError m => m
  | .storageError m => m

/-- The comparison on line 74:
`event['home_team'].lower() == game_info['home_team'].lower()`. -/
def matchesHome (home : String) (e : OddsEvent) : Bool :=
  pyLower e.home_team == pyLower home

/-- Lines 73-75: the inner loop over `events`.  The `game_info` dict
starts without an `'id'` key and every matching event overwrites it, so
the loop is a left fold that starts at `none` and replaces the
accumulator on each match. -/
def assign_id (home : String) (events : List OddsEvent) : Option String :=
  events.foldl (fun acc e => if matchesHome home e then some e.id else acc) none

end MLBFetch

namespace MLBFetch

/-! ### Dates and times

`convert_utc_to_est` (lines 114-136) and `get_utc_start_and_end`
(lines 138-158) use `datetime.strptime`, `strftime`, `timedelta`
arithmetic and the `pytz` `US/Eastern` zone.  The civil-calendar
arithmetic those library calls perform is embedded below. -/

/-- A civil date-time, the relevant content of a Python `datetime`
(the program zeroes microseconds before formatting, so they are not
modelled). -/
structure DateTime where
  year : Nat
  month : Nat
  day : Nat
  hour : Nat
  minute : Nat
  second : Nat
  deriving DecidableEq

/-- Gregorian leap year, as in Python's `calendar.isleap`. -/
def isLeap (y : Nat) : Bool := y % 4 == 0 && (y % 100 != 0 || y % 400 == 0)

/-- Number of days of month `m` of year `y` (1 = January). -/
def daysInMonth (y m : Nat) : Nat :=
  match m with
  | 1 => 31
  | 2 => if isLeap y then 29 else 28
  | 3 => 31
  | 4 => 30
  | 5 => 31
  | 6 => 30
  | 7 => 31
  | 8 => 31
  | 9 => 30
  | 10 => 31
  | 11 => 30
  | _ => 31

/-- Days of year `y` that precede the first day of month `m`. -/
def monthDaysAcc (y : Nat) : Nat → Nat
  | 0 => 0
  | 1 => 0
  | m + 2 => monthDaysAcc y (m + 1) + daysInMonth y (m + 1)

/-- The digit character of `d` (`d < 10`). -/
def dChar (k : Nat) : Char :=
  if k = 0 then '0'
  else if k = 1 then '1'
  else if k = 2 then '2'
  else if k = 3 then '3'
  else if k = 4 then '4'
  else if k = 5 then '5'
  else if k = 6 then '6'
  else if k = 7 then '7'
  else if k = 8 then '8'
  else '9'

/-- Zero-padded two-digit rendering, as `strftime` `%m %d %H %M %S`. -/
def twoDigits (n : Nat) : List Char := [dChar (n / 10), dChar (n % 10)]

/-- Four-digit rendering, as `strftime` `%Y` for the years this program
handles (1000-9999). -/
def fourDigits (n : Nat) : List Char :=
  [dChar (n / 1000), dChar (n / 100 % 10), dChar (n / 10 % 10), dChar (n % 10)]

/-- Value of a digit string, as Python `int()` applied to the text a
`strptime` field matched. -/
def digitsVal (ds : List Char) : Nat := ds.foldl (fun a c => a * 10 + (c.toNat - 48)) 0

/-- Splits a character list into its longest digit prefix and the rest. -/
def takeDigits : List Char → List Char × List Char
  | [] => ([], [])
  | c :: cs =>
    if c.isDigit then
      let p := takeDigits cs
      (c :: p.1, p.2)
    else ([], c :: cs)

/-- One numeric `strptime` field followed by a literal separator: the
digit run must satisfy `ok` and the next character must satisfy `sep`.
Because in the format `%Y-%m-%dT%H:%M:%SZ` every numeric directive is
followed by a non-digit literal, the backtracking regex `_strptime`
builds is equivalent to this maximal-munch reading of the digit run. -/
def pField (ok : List Char → Bool) (sep : Char → Bool) (cs : List Char) :
    Option (Nat × List Char) :=
  let p := takeDigits cs
  if ok p.1 then
    match p.2 with
    | [] => none
    | c :: r => if sep c then some (digitsVal p.1, r) else none
  else none

/-- The per-field acceptance predicates of a `strptime`-style parser for
the shape `%Y-%m-%dT%H:%M:%SZ`. -/
structure FieldPreds where
  yearOk : List Char → Bool
  monthOk : List Char → Bool
  dayOk : List Char → Bool
  hourOk : List Char → Bool
  minuteOk : List Char → Bool
  secondOk : List Char → Bool
  sepT : Char → Bool
  sepZ : Char → Bool

/-- Parser for `%Y-%m-%dT%H:%M:%SZ`-shaped input, parametric in the
field predicates.  The final guard is the validation the
`datetime(...)` constructor performs on the matched values: year at
least `MINYEAR = 1`, day within the month, and seconds below 60. -/
def parseWith (P : FieldPreds) (cs : List Char) : Option DateTime :=
  match pField P.yearOk (fun c => c == '-') cs with
  | none => none
  | some (y, r1) =>
    match pField P.monthOk (fun c => c == '-') r1 with
    | none => none
    | some (mo, r2) =>
      match pField P.dayOk P.sepT r2 with
      | none => none
      | some (d, r3) =>
        match pField P.hourOk (fun c => c == ':') r3 with
        | none => none
        | some (h, r4) =>
          match pField P.minuteOk (fun c => c == ':') r4 with
          | none => none
          | some (mi, r5) =>
            match pField P.secondOk P.sepZ r5 with
            | none => none
            | some (s, r6) =>
              match r6 with
              | [] =>
                if 1 ≤ y ∧ d ≤ daysInMonth y mo ∧ s ≤ 59 then
                  some ⟨y, mo, d, h, mi, s⟩
                else none
              | _ :: _ => none

/-- A digit run of length one or two: CPython's documented `strptime`
leniency ("the leading zero is optional for formats %d, %m, %H, %M,
%S"). -/
def lenDigits (ds : List Char) : Bool := ds.length == 1 || ds.length == 2

/-- The field predicates of CPython's `_strptime` regexes for
`%Y-%m-%dT%H:%M:%SZ` (`Lib/_strptime.py`, `TimeRE`): `%Y` is exactly
four digits; `%m` is `1[0-2]|0[1-9]|[1-9]`, `%d` is
`3[01]|[12]\d|0[1-9]|[1-9]`, `%H` is `2[0-3]|[0-1]\d|\d`, `%M` is
`[0-5]\d|\d`, `%S` is `6[0-1]|[0-5]\d|\d`; the whole pattern is
compiled with `re.IGNORECASE`, so the literals `T` and `Z` also match
`t` and `z`. -/
def lenientPreds : FieldPreds where
  yearOk := fun ds => ds.length == 4
  monthOk := fun ds => lenDigits ds && decide (1 ≤ digitsVal ds ∧ digitsVal ds ≤ 12)
  dayOk := fun ds => lenDigits ds && decide (1 ≤ digitsVal ds ∧ digitsVal ds ≤ 31)
  hourOk := fun ds => lenDigits ds && decide (digitsVal ds ≤ 23)
  minuteOk := fun ds => lenDigits ds && decide (digitsVal ds ≤ 59)
  secondOk := fun ds => lenDigits ds && decide (digitsVal ds ≤ 61)
  sepT := fun c => c == 'T' || c == 't'
  sepZ := fun c => c == 'Z' || c == 'z'

/-- Line 128: `datetime.strptime(utc_time_str, '%Y-%m-%dT%H:%M:%SZ')`;
`none` models the `ValueError` raised on a failed parse. -/
def parseStrptime (s : String) : Option DateTime := parseWith lenientPreds s.toList

/-- Field predicates that follow the spec's words: a *strict*
`YYYY-MM-DDTHH:MM:SSZ` timestamp, every field zero-padded to its full
width and the literals exactly `T` and `Z`. -/
def strictPreds : FieldPreds where
  yearOk := fun ds => ds.length == 4
  monthOk := fun ds => ds.length == 2 && decide (1 ≤ digitsVal ds ∧ digitsVal ds ≤ 12)
  dayOk := fun ds => ds.length == 2 && decide (1 ≤ digitsVal ds ∧ digitsVal ds ≤ 31)
  hourOk := fun ds => ds.length == 2 && decide (digitsVal ds ≤ 23)
  minuteOk := fun ds => ds.length == 2 && decide (digitsVal ds ≤ 59)
  secondOk := fun ds => ds.length == 2 && decide (digitsVal ds ≤ 59)
  sepT := fun c => c == 'T'
  sepZ := fun c => c == 'Z'

/-- Spec-side definition (for comparison with the source's parser): the
input is a valid timestamp in the strict `YYYY-MM-DDTHH:MM:SSZ` format
of §4.4 of the specification. -/
def strict_spec_format (s : String) : Bool := (parseWith strictPreds s.toList).isSome

/-- Days since 0001-01-01 in the proleptic Gregorian calendar (day 0 is
0001-01-01, a Monday). -/
def toDaysNat (y m d : Nat) : Nat :=
  365 * (y - 1) + (y - 1) / 4 + (y - 1) / 400 + monthDaysAcc y m + (d - 1) - (y - 1) / 100

/-- Day of week, 0 = Monday .. 6 = Sunday. -/
def dayOfWeek (y m d : Nat) : Nat := toDaysNat y m d % 7

/-- Day of month of the first Sunday of month `m` of year `y`. -/
def firstSunday (y m : Nat) : Nat := 1 + (6 + 7 - dayOfWeek y m 1) % 7

/-- Lexicographic key on (month, day, hour, minute) within one year;
all four components are below 100. -/
def dstKey (mo d h mi : Nat) : Nat := ((mo * 100 + d) * 100 + h) * 100 + mi

/-- Whether US Eastern daylight-saving time is in effect at the given
UTC instant, per the tz-database rule for `US/Eastern` in force since
2007 (the era this daily job runs in): DST from the second Sunday of
March 07:00 UTC (02:00 EST) up to, excluding, the first Sunday of
November 06:00 UTC (02:00 EDT). -/
def inEasternDST (dt : DateTime) : Bool :=
  let startDay := firstSunday dt.year 3 + 7
  let endDay := firstSunday dt.year 11
  decide (dstKey 3 startDay 7 0 ≤ dstKey dt.month dt.day dt.hour dt.minute ∧
    dstKey dt.month dt.day dt.hour dt.minute < dstKey 11 endDay 6 0)

/-- The civil date one day earlier. -/
def prevDayD : Nat × Nat × Nat → Nat × Nat × Nat
  | (y, m, d) =>
    if 2 ≤ d then (y, m, d - 1)
    else if 2 ≤ m then (y, m - 1, daysInMonth y (m - 1))
    else (y - 1, 12, 31)

/-- Subtract `k` hours (`k ≤ 24`) from a civil date-time: the
`astimezone` shift from UTC to a zone `k` hours behind it. -/
def subHours (dt : DateTime) (k : Nat) : DateTime :=
  if k ≤ dt.hour then { dt with hour := dt.hour - k }
  else
    let p := prevDayD (dt.year, dt.month, dt.day)
    { dt with year := p.1, month := p.2.1, day := p.2.2, hour := dt.hour + 24 - k }

/-- `strftime` two-digit zero-padded field as a string. -/
def pad2 (n : Nat) : String := String.mk (twoDigits n)

/-- `convert_utc_to_est` (lines 114-136): parse with
`strptime('%Y-%m-%dT%H:%M:%SZ')`, treat the result as UTC, shift it to
`US/Eastern` (UTC-4 during daylight-saving time, UTC-5 otherwise), and
format with `strftime("EST %H:%M")`.  `none` models the `ValueError`
escaping from line 128. -/
def convert_utc_to_est (s : String) : Option String :=
  match parseStrptime s with
  | none => none
  | some dt =>
    let offset := if inEasternDST dt then 4 else 5
    let est := subHours dt offset
    some ("EST " ++ pad2 est.hour ++ ":" ++ pad2 est.minute)

/-- The civil date one day later. -/
def nextDayD : Nat × Nat × Nat → Nat × Nat × Nat
  | (y, m, d) =>
    if d < daysInMonth y m then (y, m, d + 1)
    else if m < 12 then (y, m + 1, 1)
    else (y + 1, 1, 1)

/-- Add `k` hours to a civil date-time: `timedelta` addition on a
timezone-aware UTC `datetime` (UTC has no DST, so the shift is exact
civil-calendar arithmetic). -/
def addHours (dt : DateTime) (k : Nat) : DateTime :=
  let t := dt.hour + k
  let p := nextDayD^[t / 24] (dt.year, dt.month, dt.day)
  { dt with year := p.1, month := p.2.1, day := p.2.2, hour := t % 24 }

/-- `strftime('%Y-%m-%dT%H:%M:%SZ')` (lines 155-156). -/
def renderISO (dt : DateTime) : String :=
  String.mk (fourDigits dt.year ++ '-' :: twoDigits dt.month ++ '-' :: twoDigits dt.day ++
    'T' :: twoDigits dt.hour ++ ':' :: twoDigits dt.minute ++ ':' :: twoDigits dt.second ++ ['Z'])

/-- `get_utc_start_and_end` (lines 138-158) as a function of the
current UTC instant `now` (the value of `datetime.now(timezone.utc)`
with microseconds dropped, since they are zeroed before formatting):
truncate `now` to midnight, add `timedelta(days=1, hours=2)` — 26
hours — and format both instants. -/
def get_utc_start_and_end (now : DateTime) : String × String :=
  let start : DateTime := { now with hour := 0, minute := 0, second := 0 }
  let endDt := addHours start 26
  (renderISO start, renderISO endDt)

/-- Spec-side measure: days since 0001-01-01 (proleptic Gregorian), in
`Int` so that the leap-day corrections subtract exactly; used to state
that the window really spans 26 hours of physical time. -/
def toDaysI (y m d : Nat) : Int :=
  365 * ((y - 1 : Nat) : Int) + ((y - 1) / 4 : Nat) + ((y - 1) / 400 : Nat) +
    (monthDaysAcc y m : Int) + ((d - 1 : Nat) : Int) - ((y - 1) / 100 : Nat)

/-- Spec-side measure: seconds since the epoch 0001-01-01T00:00:00. -/
def toSecs (dt : DateTime) : Int :=
  ((toDaysI dt.year dt.month dt.day) * 24 + dt.hour) * 3600 + dt.minute * 60 + dt.second

end MLBFetch

namespace MLBFetch

/-! ### Record building and the entrypoint -/

/-- The output unit (the `game_info` dict of lines 65-71): `id = none`
models the absence of the `'id'` key. -/
structure GameRecord where
  date : String
  time : String
  away_team : String
  home_team : String
  venue : String
  id : Option String
  deriving DecidableEq

/-- The body of the per-game loop (lines 63-77): convert the game time
(a failed parse raises `ValueError`), build the record, and run the
inner event loop for the `id` key. -/
def build_game_info (events : List OddsEvent) (g : ScheduleGame) : Except PyErr GameRecord :=
  match convert_utc_to_est g.gameDate with
  | none => .error (.valueError "time data does not match format")
  | some t =>
    .ok { date := g.gameDate, time := t, away_team := g.away_team_name,
          home_team := g.home_team_name, venue := g.venue_name,
          id := assign_id g.home_team_name events }

/-- The loop of lines 63-77 over the whole game list, appending each
record to `game_info_list`; an exception in one iteration aborts the
loop and propagates. -/
def build_game_info_list (events : List OddsEvent) :
    List ScheduleGame → Except PyErr (List GameRecord)
  | [] => .ok []
  | g :: gs =>
    match build_game_info events g with
    | .error e => .error e
    | .ok r =>
      match build_game_info_list events gs with
      | .error e => .error e
      | .ok rs => .ok (r :: rs)

/-- `process_game_data` (lines 45-78).  `eventsRes` is the outcome of
the `fetch_events()` network call on line 60 (an `Except`, since the
call can raise).  Line 56 runs first: on an empty `dates` list,
`data.get("dates", [])[0]` raises `IndexError` before any fetch. -/
def process_game_data (data : ScheduleData) (eventsRes : Except PyErr (List OddsEvent)) :
    Except PyErr (List GameRecord) :=
  match data.dates with
  | [] => .error .indexError
  | d :: _ =>
    match eventsRes with
    | .error e => .error e
    | .ok events => build_game_info_list events d.games

/-- The outcomes of the effectful stages `main` (lines 161-171)
sequences: the S3 delete, the schedule fetch, the events fetch (used
inside `process_game_data`), the local save, and the S3 upload. -/
structure Env where
  deleteRes : Except PyErr Unit
  scheduleRes : Except PyErr ScheduleData
  eventsRes : Except PyErr (List OddsEvent)
  saveRes : Except PyErr Unit
  uploadRes : Except PyErr Unit

/-- The `try` block of `main` (lines 163-169), propagating the first
exception of any stage. -/
def mainBody (env : Env) : Except PyErr String :=
  match env.deleteRes with
  | .error e => .error e
  | .ok _ =>
    match env.scheduleRes with
    | .error e => .error e
    | .ok data =>
      match process_game_data data env.eventsRes with
      | .error e => .error e
      | .ok _games =>
        match env.saveRes with
        | .error e => .error e
        | .ok _ =>
          match env.uploadRes with
          | .error e => .error e
          | .ok _ => .ok "Schedule fetched and saved successfully."

/-- `main` (lines 161-171): the `try`/`except Exception` wrapper.  Its
value is the line it prints; its type (`String`, not `Except`) records
that it returns normally on every input and re-raises nothing. -/
def main (env : Env) : String :=
  match mainBody env with
  | .ok msg => msg
  | .error e => "An error occurred: " ++ e.message

/-! ### Concrete fixtures used to instantiate the theorems -/

/-- Odds event whose home team matches `gW` up to case. -/
def eW1 : OddsEvent := ⟨"evt1", "NEW YORK YANKEES", "Boston Red Sox", "2024-07-04T23:10:00Z"⟩

/-- A second matching odds event with a different identifier. -/
def eW2 : OddsEvent := ⟨"evt2", "new york yankees", "Boston Red Sox", "2024-07-04T23:10:00Z"⟩

/-- A schedule game on 2024-07-04. -/
def gW : ScheduleGame := ⟨"2024-07-04T23:10:00Z", "Boston Red Sox", "New York Yankees", "Yankee Stadium"⟩

/-- The record the builder produces for `gW` against `[eW1, eW2]`. -/
def recW : GameRecord :=
  ⟨"2024-07-04T23:10:00Z", "EST 19:10", "Boston Red Sox", "New York Yankees", "Yankee Stadium",
    some "evt2"⟩

/-- A schedule game no fixture event matches. -/
def gW2 : ScheduleGame := ⟨"2024-07-04T23:10:00Z", "Chicago Cubs", "Atlanta Braves", "Truist Park"⟩

/-- The record the builder produces for `gW2` against `[eW1, eW2]`. -/
def recW2 : GameRecord :=
  ⟨"2024-07-04T23:10:00Z", "EST 19:10", "Chicago Cubs", "Atlanta Braves", "Truist Park", none⟩

end MLBFetch

namespace MLBFetch

/-! ### Lemmas about the event join -/

theorem assign_id_concat (home : String) (es : List OddsEvent) (e : OddsEvent) :
    assign_id home (es ++ [e]) =
      if matchesHome home e then some e.id else assign_id home es := by
  simp [assign_id, List.foldl_append]

/-- The inner loop of lines 73-75 keeps the identifier of the *last*
matching event: it equals the last element of the filtered event list. -/
theorem assign_id_eq_last (home : String) (events : List OddsEvent) :
    assign_id home events =
      ((events.filter (matchesHome home)).getLast?).map OddsEvent.id := by
  induction events using List.reverseRecOn with
  | nil => rfl
  | append_singleton es e ih =>
    rw [assign_id_concat, List.filter_append]
    by_cases hm : matchesHome home e = true
    · rw [if_pos hm]
      have hf : List.filter (matchesHome home) [e] = [e] := by simp [List.filter, hm]
      rw [hf, List.getLast?_concat]
      rfl
    · rw [if_neg hm]
      have hf : List.filter (matchesHome home) [e] = [] := by simp [List.filter, hm]
      rw [hf, List.append_nil, ih]

theorem assign_id_of_no_match (home : String) (events : List OddsEvent)
    (h : ∀ e ∈ events, matchesHome home e = false) :
    assign_id home events = none := by
  rw [assign_id_eq_last]
  have hf : events.filter (matchesHome home) = [] :=
    List.filter_eq_nil_iff.mpr (fun a ha => by simp [h a ha])
  rw [hf]
  rfl

theorem assign_id_congr (h1 h2 : String) (events : List OddsEvent)
    (hh : pyLower h1 = pyLower h2) :
    assign_id h1 events = assign_id h2 events := by
  simp only [assign_id, matchesHome, hh]

theorem foldl_assign_agree (home : String) {events1 events2 : List OddsEvent}
    (h : List.Forall₂ (fun e1 e2 => e1.home_team = e2.home_team ∧ e1.id = e2.id)
      events1 events2) :
    ∀ acc, events1.foldl (fun acc e => if matchesHome home e then some e.id else acc) acc =
      events2.foldl (fun acc e => if matchesHome home e then some e.id else acc) acc := by
  induction h with
  | nil => intro acc; rfl
  | @cons a b l1 l2 hab _ ih =>
    intro acc
    simp only [List.foldl_cons]
    rw [(by simp only [matchesHome, hab.1, hab.2] :
      (if matchesHome home a then some a.id else acc) =
        if matchesHome home b then some b.id else acc)]
    exact ih _

/-! ### Lemmas about the record-building loop -/

theorem build_game_info_ok_id (events : List OddsEvent) (g : ScheduleGame) (rec : GameRecord)
    (h : build_game_info events g = .ok rec) :
    rec.id = assign_id g.home_team_name events := by
  unfold build_game_info at h
  cases hc : convert_utc_to_est g.gameDate with
  | none => rw [hc] at h; cases h
  | some t => rw [hc] at h; cases h; rfl

theorem build_game_info_list_length (events : List OddsEvent) (gs : List ScheduleGame) :
    ∀ rs, build_game_info_list events gs = .ok rs → rs.length = gs.length := by
  induction gs with
  | nil =>
    intro rs h
    simp only [build_game_info_list] at h
    cases h
    rfl
  | cons g gs ih =>
    intro rs h
    simp only [build_game_info_list] at h
    cases hb : build_game_info events g with
    | error e => rw [hb] at h; cases h
    | ok r =>
      rw [hb] at h
      cases hl : build_game_info_list events gs with
      | error e => rw [hl] at h; cases h
      | ok rs' =>
        rw [hl] at h
        cases h
        simp [ih rs' hl]

theorem build_game_info_list_get (events : List OddsEvent) (gs : List ScheduleGame) :
    ∀ rs, build_game_info_list events gs = .ok rs →
      ∀ i (hg : i < gs.length) (hr : i < rs.length),
        build_game_info events (gs.get ⟨i, hg⟩) = .ok (rs.get ⟨i, hr⟩) := by
  induction gs with
  | nil => intro rs h i hg hr; exact absurd hg (by simp)
  | cons g gs ih =>
    intro rs h i hg hr
    simp only [build_game_info_list] at h
    cases hb : build_game_info events g with
    | error e => rw [hb] at h; cases h
    | ok r =>
      rw [hb] at h
      cases hl : build_game_info_list events gs with
      | error e => rw [hl] at h; cases h
      | ok rs' =>
        rw [hl] at h
        cases h
        cases i with
        | zero => simpa using hb
        | succ j =>
          have hg' : j < gs.length := by simpa using hg
          have hr' : j < rs'.length := by simpa using hr
          simpa using ih rs' hl j hg' hr'

theorem build_game_info_list_mem (events : List OddsEvent) (gs : List ScheduleGame) :
    ∀ rs, build_game_info_list events gs = .ok rs →
      ∀ r ∈ rs, ∃ g ∈ gs, build_game_info events g = .ok r := by
  induction gs with
  | nil =>
    intro rs h r hr
    simp only [build_game_info_list] at h
    cases h
    cases hr
  | cons g gs ih =>
    intro rs h r hr
    simp only [build_game_info_list] at h
    cases hb : build_game_info events g with
    | error e => rw [hb] at h; cases h
    | ok r0 =>
      rw [hb] at h
      cases hl : build_game_info_list events gs with
      | error e => rw [hl] at h; cases h
      | ok rs' =>
        rw [hl] at h
        cases h
        rcases List.mem_cons.mp hr with hr0 | hr'
        · exact ⟨g, List.mem_cons_self g gs, hr0 ▸ hb⟩
        · obtain ⟨g', hg', hbg'⟩ := ih rs' hl r hr'
          exact ⟨g', List.mem_cons_of_mem g hg', hbg'⟩

theorem process_game_data_ok (d : DateEntry) (rest : List DateEntry)
    (events : List OddsEvent) (recs : List GameRecord)
    (hok : process_game_data ⟨d :: rest⟩ (.ok events) = .ok recs) :
    build_game_info_list events d.games = .ok recs := hok

end MLBFetch

namespace MLBFetch

/-! ### Lemmas about the strptime-style parser and the renderer -/

theorem takeDigits_append {ds : List Char} {c : Char} (r : List Char)
    (hds : ∀ x ∈ ds, x.isDigit = true) (hc : c.isDigit = false) :
    takeDigits (ds ++ c :: r) = (ds, c :: r) := by
  induction ds with
  | nil => simp [takeDigits, hc]
  | cons a as ih =>
    have ha : a.isDigit = true := hds a (List.mem_cons_self a as)
    simp only [List.cons_append, takeDigits, ha, if_true, List.append_eq]
    rw [ih (fun x hx => hds x (List.mem_cons_of_mem a hx))]

theorem pField_of_parts {ok : List Char → Bool} {sep : Char → Bool}
    {ds : List Char} {c : Char} {r cs : List Char}
    (hts : takeDigits cs = (ds, c :: r)) (hok : ok ds = true) (hsep : sep c = true) :
    pField ok sep cs = some (digitsVal ds, r) := by
  simp only [pField, hts, hok, hsep, if_true]

theorem pField_inv {ok : List Char → Bool} {sep : Char → Bool}
    {cs : List Char} {v : Nat} {r : List Char}
    (h : pField ok sep cs = some (v, r)) :
    ∃ ds c, takeDigits cs = (ds, c :: r) ∧ ok ds = true ∧ sep c = true ∧ v = digitsVal ds := by
  simp only [pField] at h
  rcases hts : takeDigits cs with ⟨ds, rest⟩
  rw [hts] at h
  dsimp only at h
  by_cases hok : ok ds = true
  · rw [if_pos hok] at h
    cases rest with
    | nil => cases h
    | cons c r' =>
      dsimp only at h
      by_cases hsep : sep c = true
      · rw [if_pos hsep] at h
        simp only [Option.some.injEq, Prod.mk.injEq] at h
        refine ⟨ds, c, ?_, hok, hsep, h.1.symm⟩
        rw [h.2]
      · rw [if_neg hsep] at h; cases h
  · rw [if_neg hok] at h; cases h

theorem pField_mono {okS okL : List Char → Bool} {sepS sepL : Char → Bool}
    (hok : ∀ ds, okS ds = true → okL ds = true)
    (hsep : ∀ c, sepS c = true → sepL c = true)
    {cs : List Char} {v : Nat} {r : List Char}
    (h : pField okS sepS cs = some (v, r)) : pField okL sepL cs = some (v, r) := by
  obtain ⟨ds, c, hts, hokd, hsepc, hv⟩ := pField_inv h
  rw [hv]
  exact pField_of_parts hts (hok ds hokd) (hsep c hsepc)

theorem parseWith_inv {P : FieldPreds} {cs : List Char} {dt : DateTime}
    (h : parseWith P cs = some dt) :
    ∃ r1 r2 r3 r4 r5,
      pField P.yearOk (fun c => c == '-') cs = some (dt.year, r1) ∧
      pField P.monthOk (fun c => c == '-') r1 = some (dt.month, r2) ∧
      pField P.dayOk P.sepT r2 = some (dt.day, r3) ∧
      pField P.hourOk (fun c => c == ':') r3 = some (dt.hour, r4) ∧
      pField P.minuteOk (fun c => c == ':') r4 = some (dt.minute, r5) ∧
      pField P.secondOk P.sepZ r5 = some (dt.second, []) ∧
      (1 ≤ dt.year ∧ dt.day ≤ daysInMonth dt.year dt.month ∧ dt.second ≤ 59) := by
  unfold parseWith at h
  cases h1 : pField P.yearOk (fun c => c == '-') cs with
  | none => rw [h1] at h; cases h
  | some p1 =>
    obtain ⟨y, r1⟩ := p1
    rw [h1] at h
    dsimp only at h
    cases h2 : pField P.monthOk (fun c => c == '-') r1 with
    | none => rw [h2] at h; cases h
    | some p2 =>
      obtain ⟨mo, r2⟩ := p2
      rw [h2] at h
      dsimp only at h
      cases h3 : pField P.dayOk P.sepT r2 with
      | none => rw [h3] at h; cases h
      | some p3 =>
        obtain ⟨d, r3⟩ := p3
        rw [h3] at h
        dsimp only at h
        cases h4 : pField P.hourOk (fun c => c == ':') r3 with
        | none => rw [h4] at h; cases h
        | some p4 =>
          obtain ⟨hh, r4⟩ := p4
          rw [h4] at h
          dsimp only at h
          cases h5 : pField P.minuteOk (fun c => c == ':') r4 with
          | none => rw [h5] at h; cases h
          | some p5 =>
            obtain ⟨mi, r5⟩ := p5
            rw [h5] at h
            dsimp only at h
            cases h6 : pField P.secondOk P.sepZ r5 with
            | none => rw [h6] at h; cases h
            | some p6 =>
              obtain ⟨sec, r6⟩ := p6
              rw [h6] at h
              dsimp only at h
              cases r6 with
              | cons x xs => cases h
              | nil =>
                by_cases hval : 1 ≤ y ∧ d ≤ daysInMonth y mo ∧ sec ≤ 59
                · rw [if_pos hval] at h
                  injection h with h'
                  subst h'
                  dsimp only
                  exact ⟨r1, r2, r3, r4, r5, rfl, h2, h3, h4, h5, h6, hval⟩
                · rw [if_neg hval] at h; cases h

theorem parseWith_mk {P : FieldPreds} {cs r1 r2 r3 r4 r5 : List Char}
    {y mo d hh mi sec : Nat}
    (h1 : pField P.yearOk (fun c => c == '-') cs = some (y, r1))
    (h2 : pField P.monthOk (fun c => c == '-') r1 = some (mo, r2))
    (h3 : pField P.dayOk P.sepT r2 = some (d, r3))
    (h4 : pField P.hourOk (fun c => c == ':') r3 = some (hh, r4))
    (h5 : pField P.minuteOk (fun c => c == ':') r4 = some (mi, r5))
    (h6 : pField P.secondOk P.sepZ r5 = some (sec, []))
    (hval : 1 ≤ y ∧ d ≤ daysInMonth y mo ∧ sec ≤ 59) :
    parseWith P cs = some ⟨y, mo, d, hh, mi, sec⟩ := by
  unfold parseWith
  rw [h1]
  dsimp only
  rw [h2]
  dsimp only
  rw [h3]
  dsimp only
  rw [h4]
  dsimp only
  rw [h5]
  dsimp only
  rw [h6]
  dsimp only
  rw [if_pos hval]

theorem parseWith_mono {P Q : FieldPreds}
    (hy : ∀ ds, P.yearOk ds = true → Q.yearOk ds = true)
    (hmo : ∀ ds, P.monthOk ds = true → Q.monthOk ds = true)
    (hd : ∀ ds, P.dayOk ds = true → Q.dayOk ds = true)
    (hh : ∀ ds, P.hourOk ds = true → Q.hourOk ds = true)
    (hmi : ∀ ds, P.minuteOk ds = true → Q.minuteOk ds = true)
    (hs : ∀ ds, P.secondOk ds = true → Q.secondOk ds = true)
    (hT : ∀ c, P.sepT c = true → Q.sepT c = true)
    (hZ : ∀ c, P.sepZ c = true → Q.sepZ c = true)
    {cs : List Char} {dt : DateTime} (h : parseWith P cs = some dt) :
    parseWith Q cs = some dt := by
  obtain ⟨r1, r2, r3, r4, r5, h1, h2, h3, h4, h5, h6, hval⟩ := parseWith_inv h
  exact parseWith_mk (pField_mono hy (fun c hc => hc) h1) (pField_mono hmo (fun c hc => hc) h2)
    (pField_mono hd hT h3) (pField_mono hh (fun c hc => hc) h4)
    (pField_mono hmi (fun c hc => hc) h5) (pField_mono hs hZ h6) hval

/-- Every string the spec-side strict parser accepts, CPython's lenient
parser accepts with the same result. -/
theorem strict_implies_lenient {s : String} {dt : DateTime}
    (h : parseWith strictPreds s.toList = some dt) : parseStrptime s = some dt := by
  unfold parseStrptime
  refine parseWith_mono ?_ ?_ ?_ ?_ ?_ ?_ ?_ ?_ h
  · intro ds hds
    exact hds
  · intro ds hds
    simp only [strictPreds, Bool.and_eq_true, beq_iff_eq, decide_eq_true_eq] at hds
    simp only [lenientPreds, lenDigits, Bool.and_eq_true, Bool.or_eq_true, beq_iff_eq,
      decide_eq_true_eq]
    exact ⟨Or.inr hds.1, hds.2⟩
  · intro ds hds
    simp only [strictPreds, Bool.and_eq_true, beq_iff_eq, decide_eq_true_eq] at hds
    simp only [lenientPreds, lenDigits, Bool.and_eq_true, Bool.or_eq_true, beq_iff_eq,
      decide_eq_true_eq]
    exact ⟨Or.inr hds.1, hds.2⟩
  · intro ds hds
    simp only [strictPreds, Bool.and_eq_true, beq_iff_eq, decide_eq_true_eq] at hds
    simp only [lenientPreds, lenDigits, Bool.and_eq_true, Bool.or_eq_true, beq_iff_eq,
      decide_eq_true_eq]
    exact ⟨Or.inr hds.1, hds.2⟩
  · intro ds hds
    simp only [strictPreds, Bool.and_eq_true, beq_iff_eq, decide_eq_true_eq] at hds
    simp only [lenientPreds, lenDigits, Bool.and_eq_true, Bool.or_eq_true, beq_iff_eq,
      decide_eq_true_eq]
    exact ⟨Or.inr hds.1, hds.2⟩
  · intro ds hds
    simp only [strictPreds, Bool.and_eq_true, beq_iff_eq, decide_eq_true_eq] at hds
    simp only [lenientPreds, lenDigits, Bool.and_eq_true, Bool.or_eq_true, beq_iff_eq,
      decide_eq_true_eq]
    exact ⟨Or.inr hds.1, by omega⟩
  · intro c hc
    simp only [strictPreds, beq_iff_eq] at hc
    simp only [lenientPreds, Bool.or_eq_true, beq_iff_eq]
    exact Or.inl hc
  · intro c hc
    simp only [strictPreds, beq_iff_eq] at hc
    simp only [lenientPreds, Bool.or_eq_true, beq_iff_eq]
    exact Or.inl hc

/-- The lenient field predicates bound the parsed hour and minute. -/
theorem parseStrptime_hour_minute {s : String} {dt : DateTime}
    (h : parseStrptime s = some dt) : dt.hour ≤ 23 ∧ dt.minute ≤ 59 := by
  unfold parseStrptime at h
  obtain ⟨r1, r2, r3, r4, r5, h1, h2, h3, h4, h5, h6, hval⟩ := parseWith_inv h
  obtain ⟨ds4, c4, hts4, hok4, hsep4, hv4⟩ := pField_inv h4
  obtain ⟨ds5, c5, hts5, hok5, hsep5, hv5⟩ := pField_inv h5
  simp only [lenientPreds, Bool.and_eq_true, decide_eq_true_eq] at hok4 hok5
  exact ⟨hv4 ▸ hok4.2, hv5 ▸ hok5.2⟩

theorem dChar_isDigit (k : Nat) : (dChar k).isDigit = true := by
  unfold dChar
  split_ifs <;> decide

theorem dChar_val {k : Nat} (h : k < 10) : (dChar k).toNat - 48 = k := by
  unfold dChar
  split_ifs with h0 h1 h2 h3 h4 h5 h6 h7 h8
  · subst h0; decide
  · subst h1; decide
  · subst h2; decide
  · subst h3; decide
  · subst h4; decide
  · subst h5; decide
  · subst h6; decide
  · subst h7; decide
  · subst h8; decide
  · have hk : k = 9 := by omega
    subst hk; decide

theorem twoDigits_isDigit (n : Nat) : ∀ x ∈ twoDigits n, x.isDigit = true := by
  intro x hx
  unfold twoDigits at hx
  rcases List.mem_cons.mp hx with rfl | hx'
  · exact dChar_isDigit _
  · rcases List.mem_cons.mp hx' with rfl | hx''
    · exact dChar_isDigit _
    · cases hx''

theorem fourDigits_isDigit (n : Nat) : ∀ x ∈ fourDigits n, x.isDigit = true := by
  intro x hx
  unfold fourDigits at hx
  rcases List.mem_cons.mp hx with rfl | hx1
  · exact dChar_isDigit _
  · rcases List.mem_cons.mp hx1 with rfl | hx2
    · exact dChar_isDigit _
    · rcases List.mem_cons.mp hx2 with rfl | hx3
      · exact dChar_isDigit _
      · rcases List.mem_cons.mp hx3 with rfl | hx4
        · exact dChar_isDigit _
        · cases hx4

theorem twoDigits_length (n : Nat) : (twoDigits n).length = 2 := rfl

theorem fourDigits_length (n : Nat) : (fourDigits n).length = 4 := rfl

theorem digitsVal_twoDigits {n : Nat} (h : n < 100) : digitsVal (twoDigits n) = n := by
  unfold digitsVal twoDigits
  simp only [List.foldl_cons, List.foldl_nil]
  rw [dChar_val (by omega), dChar_val (by omega)]
  omega

theorem digitsVal_fourDigits {n : Nat} (h : n < 10000) : digitsVal (fourDigits n) = n := by
  unfold digitsVal fourDigits
  simp only [List.foldl_cons, List.foldl_nil]
  rw [dChar_val (by omega), dChar_val (by omega), dChar_val (by omega), dChar_val (by omega)]
  omega

theorem renderISO_toList (dt : DateTime) :
    (renderISO dt).toList =
      fourDigits dt.year ++ '-' :: (twoDigits dt.month ++ '-' :: (twoDigits dt.day ++
        'T' :: (twoDigits dt.hour ++ ':' :: (twoDigits dt.minute ++
          ':' :: (twoDigits dt.second ++ 'Z' :: []))))) := rfl

/-- Parsing inverts rendering, for any predicate set the rendered
fields satisfy. -/
theorem parseWith_render {P : FieldPreds} (dt : DateTime)
    (hy : P.yearOk (fourDigits dt.year) = true)
    (hmo : P.monthOk (twoDigits dt.month) = true)
    (hd : P.dayOk (twoDigits dt.day) = true)
    (hho : P.hourOk (twoDigits dt.hour) = true)
    (hmi : P.minuteOk (twoDigits dt.minute) = true)
    (hse : P.secondOk (twoDigits dt.second) = true)
    (hT : P.sepT 'T' = true) (hZ : P.sepZ 'Z' = true)
    (hb : dt.year < 10000 ∧ dt.month < 100 ∧ dt.day < 100 ∧ dt.hour < 100 ∧
      dt.minute < 100 ∧ dt.second < 100)
    (hval : 1 ≤ dt.year ∧ dt.day ≤ daysInMonth dt.year dt.month ∧ dt.second ≤ 59) :
    parseWith P (renderISO dt).toList = some dt := by
  obtain ⟨hb1, hb2, hb3, hb4, hb5, hb6⟩ := hb
  have hminus : ('-' : Char).isDigit = false := by decide
  have hcolon : (':' : Char).isDigit = false := by decide
  have hTd : ('T' : Char).isDigit = false := by decide
  have hZd : ('Z' : Char).isDigit = false := by decide
  have e1 : pField P.yearOk (fun c => c == '-')
      (fourDigits dt.year ++ '-' :: (twoDigits dt.month ++ '-' :: (twoDigits dt.day ++ 'T' :: (twoDigits dt.hour ++ ':' :: (twoDigits dt.minute ++ ':' :: (twoDigits dt.second ++ 'Z' :: [])))))) =
      some (digitsVal (fourDigits dt.year), twoDigits dt.month ++ '-' :: (twoDigits dt.day ++ 'T' :: (twoDigits dt.hour ++ ':' :: (twoDigits dt.minute ++ ':' :: (twoDigits dt.second ++ 'Z' :: []))))) :=
    pField_of_parts (takeDigits_append (twoDigits dt.month ++ '-' :: (twoDigits dt.day ++ 'T' :: (twoDigits dt.hour ++ ':' :: (twoDigits dt.minute ++ ':' :: (twoDigits dt.second ++ 'Z' :: []))))) (fourDigits_isDigit dt.year) hminus) hy (by decide)
  rw [digitsVal_fourDigits hb1] at e1
  have e2 : pField P.monthOk (fun c => c == '-')
      (twoDigits dt.month ++ '-' :: (twoDigits dt.day ++ 'T' :: (twoDigits dt.hour ++ ':' :: (twoDigits dt.minute ++ ':' :: (twoDigits dt.second ++ 'Z' :: []))))) =
      some (digitsVal (twoDigits dt.month), twoDigits dt.day ++ 'T' :: (twoDigits dt.hour ++ ':' :: (twoDigits dt.minute ++ ':' :: (twoDigits dt.second ++ 'Z' :: [])))) :=
    pField_of_parts (takeDigits_append (twoDigits dt.day ++ 'T' :: (twoDigits dt.hour ++ ':' :: (twoDigits dt.minute ++ ':' :: (twoDigits dt.second ++ 'Z' :: [])))) (twoDigits_isDigit dt.month) hminus) hmo (by decide)
  rw [digitsVal_twoDigits hb2] at e2
  have e3 : pField P.dayOk (P.sepT)
      (twoDigits dt.day ++ 'T' :: (twoDigits dt.hour ++ ':' :: (twoDigits dt.minute ++ ':' :: (twoDigits dt.second ++ 'Z' :: [])))) =
      some (digitsVal (twoDigits dt.day), twoDigits dt.hour ++ ':' :: (twoDigits dt.minute ++ ':' :: (twoDigits dt.second ++ 'Z' :: []))) :=
    pField_of_parts (takeDigits_append (twoDigits dt.hour ++ ':' :: (twoDigits dt.minute ++ ':' :: (twoDigits dt.second ++ 'Z' :: []))) (twoDigits_isDigit dt.day) hTd) hd hT
  rw [digitsVal_twoDigits hb3] at e3
  have e4 : pField P.hourOk (fun c => c == ':')
      (twoDigits dt.hour ++ ':' :: (twoDigits dt.minute ++ ':' :: (twoDigits dt.second ++ 'Z' :: []))) =
      some (digitsVal (twoDigits dt.hour), twoDigits dt.minute ++ ':' :: (twoDigits dt.second ++ 'Z' :: [])) :=
    pField_of_parts (takeDigits_append (twoDigits dt.minute ++ ':' :: (twoDigits dt.second ++ 'Z' :: [])) (twoDigits_isDigit dt.hour) hcolon) hho (by decide)
  rw [digitsVal_twoDigits hb4] at e4
  have e5 : pField P.minuteOk (fun c => c == ':')
      (twoDigits dt.minute ++ ':' :: (twoDigits dt.second ++ 'Z' :: [])) =
      some (digitsVal (twoDigits dt.minute), twoDigits dt.second ++ 'Z' :: []) :=
    pField_of_parts (takeDigits_append (twoDigits dt.second ++ 'Z' :: []) (twoDigits_isDigit dt.minute) hcolon) hmi (by decide)
  rw [digitsVal_twoDigits hb5] at e5
  have e6 : pField P.secondOk (P.sepZ)
      (twoDigits dt.second ++ 'Z' :: []) =
      some (digitsVal (twoDigits dt.second), ([] : List Char)) :=
    pField_of_parts (takeDigits_append (([] : List Char)) (twoDigits_isDigit dt.second) hZd) hse hZ
  rw [digitsVal_twoDigits hb6] at e6
  rw [renderISO_toList]
  exact parseWith_mk e1 e2 e3 e4 e5 e6 hval

/-- A rendered timestamp is in the spec's strict format whenever its
fields are in range. -/
theorem strict_spec_format_render (dt : DateTime)
    (hy1 : 1 ≤ dt.year) (hy4 : 1000 ≤ dt.year) (hy2 : dt.year ≤ 9999)
    (hm1 : 1 ≤ dt.month) (hm2 : dt.month ≤ 12)
    (hd1 : 1 ≤ dt.day) (hd2 : dt.day ≤ daysInMonth dt.year dt.month)
    (hh : dt.hour ≤ 23) (hmi : dt.minute ≤ 59) (hs : dt.second ≤ 59) :
    parseWith strictPreds (renderISO dt).toList = some dt := by
  have hd31 : dt.day ≤ 31 := le_trans hd2 (by
    unfold daysInMonth
    split
    all_goals try omega
    split <;> omega)
  apply parseWith_render dt
  · simp [strictPreds, fourDigits_length]
  · have hv : digitsVal (twoDigits dt.month) = dt.month := digitsVal_twoDigits (by omega)
    simp only [strictPreds, twoDigits_length, hv, Bool.and_eq_true, beq_iff_eq,
      decide_eq_true_eq, true_and, and_true]
    omega
  · have hv : digitsVal (twoDigits dt.day) = dt.day := digitsVal_twoDigits (by omega)
    simp only [strictPreds, twoDigits_length, hv, Bool.and_eq_true, beq_iff_eq,
      decide_eq_true_eq, true_and, and_true]
    omega
  · have hv : digitsVal (twoDigits dt.hour) = dt.hour := digitsVal_twoDigits (by omega)
    simp only [strictPreds, twoDigits_length, hv, Bool.and_eq_true, beq_iff_eq,
      decide_eq_true_eq, true_and, and_true]
    omega
  · have hv : digitsVal (twoDigits dt.minute) = dt.minute := digitsVal_twoDigits (by omega)
    simp only [strictPreds, twoDigits_length, hv, Bool.and_eq_true, beq_iff_eq,
      decide_eq_true_eq, true_and, and_true]
    omega
  · have hv : digitsVal (twoDigits dt.second) = dt.second := digitsVal_twoDigits (by omega)
    simp only [strictPreds, twoDigits_length, hv, Bool.and_eq_true, beq_iff_eq,
      decide_eq_true_eq, true_and, and_true]
    omega
  · rfl
  · rfl
  · omega
  · exact ⟨hy1, hd2, hs⟩

/-- `subHours` never changes the minutes. -/
theorem subHours_minute (dt : DateTime) (k : Nat) : (subHours dt k).minute = dt.minute := by
  unfold subHours
  split <;> rfl

/-- `subHours` keeps the hour in range. -/
theorem subHours_hour_le {dt : DateTime} {k : Nat} (hk1 : 1 ≤ k) (hh : dt.hour ≤ 23) :
    (subHours dt k).hour ≤ 23 := by
  unfold subHours
  split
  next hle => show dt.hour - k ≤ 23; omega
  next hgt => show dt.hour + 24 - k ≤ 23; omega

end MLBFetch

namespace MLBFetch

/-! ### Calendar lemmas for the 26-hour window -/

theorem one_le_daysInMonth (y m : Nat) : 1 ≤ daysInMonth y m := by
  unfold daysInMonth
  split <;> (try split) <;> omega

theorem monthDaysAcc_succ (y : Nat) {m : Nat} (hm : 1 ≤ m) :
    monthDaysAcc y (m + 1) = monthDaysAcc y m + daysInMonth y m := by
  cases m with
  | zero => omega
  | succ m' => rfl

theorem monthDaysAcc_12 (y : Nat) : monthDaysAcc y 12 = 306 + daysInMonth y 2 := by
  cases hL : isLeap y <;> simp [monthDaysAcc, daysInMonth, hL]

theorem isLeap_iff (y : Nat) :
    isLeap y = true ↔ (y % 4 = 0 ∧ (y % 100 ≠ 0 ∨ y % 400 = 0)) := by
  simp [isLeap, Bool.and_eq_true, Bool.or_eq_true, beq_iff_eq, bne_iff_ne]

/-- Stepping one civil day forward adds exactly one to the day count. -/
theorem toDaysI_nextDay {y m d : Nat} (hy : 1 ≤ y) (hm1 : 1 ≤ m) (hm2 : m ≤ 12)
    (hd1 : 1 ≤ d) (hd2 : d ≤ daysInMonth y m) :
    toDaysI (nextDayD (y, m, d)).1 (nextDayD (y, m, d)).2.1 (nextDayD (y, m, d)).2.2 =
      toDaysI y m d + 1 := by
  unfold nextDayD
  dsimp only
  split_ifs with hlt hm12
  · dsimp only
    unfold toDaysI
    omega
  · dsimp only
    unfold toDaysI
    rw [monthDaysAcc_succ y hm1]
    have hdd : d = daysInMonth y m := by omega
    rw [← hdd]
    omega
  · dsimp only
    have hm' : m = 12 := by omega
    subst hm'
    have hdim : daysInMonth y 12 = 31 := rfl
    have hd' : d = 31 := by omega
    subst hd'
    unfold toDaysI
    rw [monthDaysAcc_12]
    cases hL : isLeap y with
    | true =>
      have hLp := (isLeap_iff y).mp hL
      have h2 : daysInMonth y 2 = 29 := by simp [daysInMonth, hL]
      rw [h2]
      simp only [monthDaysAcc]
      omega
    | false =>
      have hLp : ¬(y % 4 = 0 ∧ (y % 100 ≠ 0 ∨ y % 400 = 0)) := by
        rw [← isLeap_iff]
        simp [hL]
      have h2 : daysInMonth y 2 = 28 := by simp [daysInMonth, hL]
      rw [h2]
      simp only [monthDaysAcc]
      omega

theorem nextDayD_valid {y m d : Nat} (hy : 1 ≤ y) (hm1 : 1 ≤ m) (hm2 : m ≤ 12)
    (hd1 : 1 ≤ d) (hd2 : d ≤ daysInMonth y m) :
    y ≤ (nextDayD (y, m, d)).1 ∧ (nextDayD (y, m, d)).1 ≤ y + 1 ∧
    1 ≤ (nextDayD (y, m, d)).2.1 ∧ (nextDayD (y, m, d)).2.1 ≤ 12 ∧
    1 ≤ (nextDayD (y, m, d)).2.2 ∧
    (nextDayD (y, m, d)).2.2 ≤ daysInMonth (nextDayD (y, m, d)).1 (nextDayD (y, m, d)).2.1 := by
  unfold nextDayD
  dsimp only
  split_ifs with h1 h2
  · dsimp only
    exact ⟨le_refl y, by omega, hm1, hm2, by omega, by omega⟩
  · dsimp only
    refine ⟨le_refl y, by omega, by omega, by omega, by omega, ?_⟩
    exact one_le_daysInMonth y (m + 1)
  · dsimp only
    refine ⟨by omega, by omega, by omega, by omega, by omega, ?_⟩
    exact one_le_daysInMonth (y + 1) 1

end MLBFetch

namespace MLBFetch

/-! ### The claims -/

/-- C1: for every schedule game and every list of odds-events, when two
or more events' `home_team` match the game's home team
case-insensitively, the record produced for that game carries the
identifier of the *last* matching event in iteration order (the inner
loop on lines 73-75 does not break, so each later match overwrites the
earlier one). -/
theorem C1_last_match_wins (g : ScheduleGame) (events : List OddsEvent) (rec : GameRecord)
    (hb : build_game_info events g = .ok rec)
    (h2 : 2 ≤ (events.filter (matchesHome g.home_team_name)).length) :
    rec.id = ((events.filter (matchesHome g.home_team_name)).getLast?).map OddsEvent.id ∧
      rec.id.isSome = true := by
  have hid : rec.id = ((events.filter (matchesHome g.home_team_name)).getLast?).map OddsEvent.id :=
    (build_game_info_ok_id events g rec hb).trans (assign_id_eq_last _ _)
  refine ⟨hid, ?_⟩
  have hne : events.filter (matchesHome g.home_team_name) ≠ [] := by
    intro hnil
    rw [hnil] at h2
    simp at h2
  have := List.getLast?_isSome.mpr hne
  rw [hid]
  cases hgl : (events.filter (matchesHome g.home_team_name)).getLast? with
  | none => rw [hgl] at this; simp at this
  | some e => rfl

/-- C1 witness: `gW` against `[eW1, eW2]` (both match, identifiers
`evt1` then `evt2`); the record carries `evt2`. -/
theorem C1_witness :
    build_game_info [eW1, eW2] gW = .ok recW ∧
    2 ≤ (List.filter (matchesHome gW.home_team_name) [eW1, eW2]).length ∧
    (recW.id = ((List.filter (matchesHome gW.home_team_name) [eW1, eW2]).getLast?).map
        OddsEvent.id ∧
      recW.id.isSome = true) :=
  ⟨rfl, by decide, C1_last_match_wins gW [eW1, eW2] recW rfl (by decide)⟩

/-- C2: on a schedule response with an empty `dates` list the code does
*not* raise a classified error: line 56 evaluates
`data.get("dates", [])[0]`, which raises the out-of-range `IndexError`
the spec says should be a clear `EmptyScheduleError`.  The fault fires
before the odds fetch is even consulted. -/
theorem C2_empty_dates_raises_index_error :
    process_game_data ⟨[]⟩ (.ok []) = .error PyErr.indexError ∧
    process_game_data ⟨[]⟩ (.error (.httpError "odds api down")) = .error PyErr.indexError :=
  ⟨rfl, rfl⟩

/-- C5: for a schedule response whose first date entry has `N` games
and an event list in which no event matches any game's home team
case-insensitively, record building yields exactly `N` records and
every record lacks the `id` key (`none` models the absent key). -/
theorem C5_no_match_no_id (d : DateEntry) (rest : List DateEntry)
    (events : List OddsEvent) (recs : List GameRecord)
    (hnm : ∀ g ∈ d.games, ∀ e ∈ events, matchesHome g.home_team_name e = false)
    (hok : process_game_data ⟨d :: rest⟩ (.ok events) = .ok recs) :
    recs.length = d.games.length ∧ ∀ r ∈ recs, r.id = none := by
  have h := process_game_data_ok d rest events recs hok
  refine ⟨build_game_info_list_length events d.games recs h, ?_⟩
  intro r hr
  obtain ⟨g, hg, hbg⟩ := build_game_info_list_mem events d.games recs h r hr
  rw [build_game_info_ok_id events g r hbg]
  exact assign_id_of_no_match _ _ (hnm g hg)

/-- C5 witness: two games, two events, no match; two records, both
without `id`. -/
theorem C5_witness :
    (∀ g ∈ (DateEntry.mk [gW2, gW2]).games, ∀ e ∈ [eW1, eW2],
      matchesHome g.home_team_name e = false) ∧
    process_game_data ⟨[⟨[gW2, gW2]⟩]⟩ (.ok [eW1, eW2]) = .ok [recW2, recW2] ∧
    ([recW2, recW2].length = (DateEntry.mk [gW2, gW2]).games.length ∧
      ∀ r ∈ [recW2, recW2], r.id = none) :=
  ⟨by decide, rfl,
    C5_no_match_no_id ⟨[gW2, gW2]⟩ [] [eW1, eW2] [recW2, recW2] (by decide) rfl⟩

/-- C6: two schedule games of the same run whose home-team names are
equal case-insensitively receive the same `id` outcome (both the same
identifier, or both lack the key): the join only looks at the lowered
home-team name, which is the doubleheader weakness the spec records. -/
theorem C6_shared_home_same_id (events : List OddsEvent) (g1 g2 : ScheduleGame)
    (r1 r2 : GameRecord)
    (hh : pyLower g1.home_team_name = pyLower g2.home_team_name)
    (h1 : build_game_info events g1 = .ok r1)
    (h2 : build_game_info events g2 = .ok r2) :
    r1.id = r2.id := by
  rw [build_game_info_ok_id events g1 r1 h1, build_game_info_ok_id events g2 r2 h2]
  exact assign_id_congr _ _ events hh

/-- C6 witness: a doubleheader — `gW` and its all-caps variant get the
identifier of the same event. -/
theorem C6_witness :
    pyLower gW.home_team_name =
      pyLower (ScheduleGame.mk "2024-07-04T23:10:00Z" "Boston Red Sox" "NEW YORK YANKEES"
        "Yankee Stadium").home_team_name ∧
    recW.id =
      (GameRecord.mk "2024-07-04T23:10:00Z" "EST 19:10" "Boston Red Sox" "NEW YORK YANKEES"
        "Yankee Stadium" (some "evt2")).id :=
  ⟨by decide,
    C6_shared_home_same_id [eW1, eW2] gW
      ⟨"2024-07-04T23:10:00Z", "Boston Red Sox", "NEW YORK YANKEES", "Yankee Stadium"⟩
      recW
      ⟨"2024-07-04T23:10:00Z", "EST 19:10", "Boston Red Sox", "NEW YORK YANKEES",
        "Yankee Stadium", some "evt2"⟩
      (by decide) rfl rfl⟩

/-- C7: the output list preserves the upstream ordering — it has one
record per game of the first date entry, and the `i`-th record is the
one built from the `i`-th game; the loop only appends, no sorting is
applied. -/
theorem C7_order_preserved (d : DateEntry) (rest : List DateEntry)
    (events : List OddsEvent) (recs : List GameRecord)
    (hok : process_game_data ⟨d :: rest⟩ (.ok events) = .ok recs) :
    recs.length = d.games.length ∧
    ∀ i (hg : i < d.games.length) (hr : i < recs.length),
      build_game_info events (d.games.get ⟨i, hg⟩) = .ok (recs.get ⟨i, hr⟩) := by
  have h := process_game_data_ok d rest events recs hok
  exact ⟨build_game_info_list_length events d.games recs h,
    fun i hg hr => build_game_info_list_get events d.games recs h i hg hr⟩

/-- C7 witness: two games (one matched, one not) produce two records in
schedule order, the first carrying `id` and the second lacking it. -/
theorem C7_witness :
    process_game_data ⟨[⟨[gW, gW2]⟩]⟩ (.ok [eW1, eW2]) = .ok [recW, recW2] ∧
    ([recW, recW2].length = (DateEntry.mk [gW, gW2]).games.length ∧
      ∀ i (hg : i < (DateEntry.mk [gW, gW2]).games.length) (hr : i < [recW, recW2].length),
        build_game_info [eW1, eW2] ((DateEntry.mk [gW, gW2]).games.get ⟨i, hg⟩) =
          .ok ([recW, recW2].get ⟨i, hr⟩)) :=
  ⟨rfl, C7_order_preserved ⟨[gW, gW2]⟩ [] [eW1, eW2] [recW, recW2] rfl⟩

/-- C8: every exception any stage raises is caught once by the
`except Exception` clause of `main`, logged via its message, and
swallowed: whichever stage fails first, `main` returns the logged line
(and `main`'s type, a plain `String`, records that it never
re-raises). -/
theorem C8_main_catches_everything (env : Env) :
    (∀ e, env.deleteRes = .error e → main env = "An error occurred: " ++ e.message) ∧
    (∀ e, env.deleteRes = .ok () → env.scheduleRes = .error e →
      main env = "An error occurred: " ++ e.message) ∧
    (∀ e data, env.deleteRes = .ok () → env.scheduleRes = .ok data →
      process_game_data data env.eventsRes = .error e →
      main env = "An error occurred: " ++ e.message) ∧
    (∀ e data games, env.deleteRes = .ok () → env.scheduleRes = .ok data →
      process_game_data data env.eventsRes = .ok games → env.saveRes = .error e →
      main env = "An error occurred: " ++ e.message) ∧
    (∀ e data games, env.deleteRes = .ok () → env.scheduleRes = .ok data →
      process_game_data data env.eventsRes = .ok games → env.saveRes = .ok () →
      env.uploadRes = .error e →
      main env = "An error occurred: " ++ e.message) ∧
    (∀ data games, env.deleteRes = .ok () → env.scheduleRes = .ok data →
      process_game_data data env.eventsRes = .ok games → env.saveRes = .ok () →
      env.uploadRes = .ok () →
      main env = "Schedule fetched and saved successfully.") := by
  refine ⟨?_, ?_, ?_, ?_, ?_, ?_⟩
  · intro e h
    simp [main, mainBody, h]
  · intro e h1 h2
    simp [main, mainBody, h1, h2]
  · intro e data h1 h2 h3
    simp [main, mainBody, h1, h2, h3]
  · intro e data games h1 h2 h3 h4
    simp [main, mainBody, h1, h2, h3, h4]
  · intro e data games h1 h2 h3 h4 h5
    simp [main, mainBody, h1, h2, h3, h4, h5]
  · intro data games h1 h2 h3 h4 h5
    simp [main, mainBody, h1, h2, h3, h4, h5]

/-- C8 witness: a run whose upload stage fails ends in the logged line,
not in a propagated exception. -/
theorem C8_witness :
    main ⟨.ok (), .ok ⟨[⟨[gW]⟩]⟩, .ok [eW1, eW2], .ok (), .error (.storageError "upload failed")⟩ =
      "An error occurred: upload failed" :=
  (C8_main_catches_everything
    ⟨.ok (), .ok ⟨[⟨[gW]⟩]⟩, .ok [eW1, eW2], .ok (), .error (.storageError "upload failed")⟩).2.2.2.2.1
    (.storageError "upload failed") ⟨[⟨[gW]⟩]⟩ [recW] rfl rfl rfl rfl rfl

/-- C9: the output length always equals the number of games of the
first date entry — regardless of the event list, a game is never
dropped or duplicated, since the loop appends exactly one record per
game and any failure aborts the whole call rather than skipping. -/
theorem C9_no_game_dropped (d : DateEntry) (rest : List DateEntry)
    (eventsRes : Except PyErr (List OddsEvent)) (recs : List GameRecord)
    (hok : process_game_data ⟨d :: rest⟩ eventsRes = .ok recs) :
    recs.length = d.games.length := by
  cases eventsRes with
  | error e => cases hok
  | ok events => exact build_game_info_list_length events d.games recs hok

/-- C9 witness: one game, both fixture events matching it twice over —
still exactly one record. -/
theorem C9_witness :
    process_game_data ⟨[⟨[gW]⟩]⟩ (.ok [eW1, eW2]) = .ok [recW] ∧
    [recW].length = (DateEntry.mk [gW]).games.length :=
  ⟨rfl, C9_no_game_dropped ⟨[gW]⟩ [] (.ok [eW1, eW2]) [recW] rfl⟩

/-- C10: the `id` outcome depends only on the `home_team` and `id`
fields of the events: two event lists that agree pointwise on those two
fields give every game the same `id` outcome, whatever their
`away_team` and `commence_time` fields are. -/
theorem C10_only_home_and_id_matter (events1 events2 : List OddsEvent)
    (hagree : List.Forall₂ (fun e1 e2 => e1.home_team = e2.home_team ∧ e1.id = e2.id)
      events1 events2) :
    (∀ home, assign_id home events1 = assign_id home events2) ∧
    ∀ g r1 r2, build_game_info events1 g = .ok r1 → build_game_info events2 g = .ok r2 →
      r1.id = r2.id := by
  have hassign : ∀ home, assign_id home events1 = assign_id home events2 :=
    fun home => foldl_assign_agree home hagree none
  refine ⟨hassign, ?_⟩
  intro g r1 r2 h1 h2
  rw [build_game_info_ok_id events1 g r1 h1, build_game_info_ok_id events2 g r2 h2]
  exact hassign g.home_team_name

/-- C10 witness: scrambling `away_team` and `commence_time` leaves the
join unchanged. -/
theorem C10_witness :
    List.Forall₂ (fun e1 e2 => e1.home_team = e2.home_team ∧ e1.id = e2.id)
      [eW1, eW2]
      ([⟨"evt1", "NEW YORK YANKEES", "Someone Else", "1999-01-01T00:00:00Z"⟩,
        ⟨"evt2", "new york yankees", "Another Team", "2031-12-31T23:59:59Z"⟩] :
          List OddsEvent) ∧
    assign_id gW.home_team_name [eW1, eW2] =
      assign_id gW.home_team_name
        [⟨"evt1", "NEW YORK YANKEES", "Someone Else", "1999-01-01T00:00:00Z"⟩,
          ⟨"evt2", "new york yankees", "Another Team", "2031-12-31T23:59:59Z"⟩] :=
  have hf : List.Forall₂ (fun e1 e2 => e1.home_team = e2.home_team ∧ e1.id = e2.id)
      [eW1, eW2]
      ([⟨"evt1", "NEW YORK YANKEES", "Someone Else", "1999-01-01T00:00:00Z"⟩,
        ⟨"evt2", "new york yankees", "Another Team", "2031-12-31T23:59:59Z"⟩] :
          List OddsEvent) :=
    List.Forall₂.cons ⟨rfl, rfl⟩ (List.Forall₂.cons ⟨rfl, rfl⟩ List.Forall₂.nil)
  ⟨hf, (C10_only_home_and_id_matter _ _ hf).1 gW.home_team_name⟩

/-- C3 counterexample: the claim says `convert_utc_to_est` fails on
every input outside the strict `YYYY-MM-DDTHH:MM:SSZ` format, but
CPython's `strptime` documents that the leading zero is optional for
`%m`, `%d`, `%H`, `%M` and `%S`: the non-strict string
`2024-7-04T23:10:00Z` (month not zero-padded) parses and converts
successfully instead of raising. -/
theorem C3_counterexample :
    convert_utc_to_est "2024-7-04T23:10:00Z" = some "EST 19:10" ∧
    strict_spec_format "2024-7-04T23:10:00Z" = false :=
  ⟨rfl, rfl⟩

/-- C3 (amended): `convert_utc_to_est` accepts every strict
`YYYY-MM-DDTHH:MM:SSZ` timestamp, but also the `strptime`-lenient
variants with unpadded fields and lowercase `t`/`z`; it still rejects
fractional seconds, offset suffixes and other separators.  On success
it interprets the input as UTC, shifts it to US Eastern (UTC-4 during
daylight-saving time, UTC-5 otherwise — compare the July and January
examples) and always returns the literal label `EST` with a
zero-padded `HH:MM`; in particular
`convert_utc_to_est "2024-07-04T23:10:00Z" = "EST 19:10"`. -/
theorem C3_time_display :
    (∀ s, strict_spec_format s = true → (convert_utc_to_est s).isSome = true) ∧
    (∀ s r, convert_utc_to_est s = some r →
      ∃ h mi, h ≤ 23 ∧ mi ≤ 59 ∧ r = "EST " ++ pad2 h ++ ":" ++ pad2 mi) ∧
    convert_utc_to_est "2024-07-04T23:10:00Z" = some "EST 19:10" ∧
    convert_utc_to_est "2024-01-15T23:10:00Z" = some "EST 18:10" ∧
    convert_utc_to_est "2024-07-04T23:10:00.123Z" = none ∧
    convert_utc_to_est "2024-07-04T23:10:00+00:00" = none ∧
    convert_utc_to_est "2024-07-04 23:10:00Z" = none := by
  refine ⟨?_, ?_, rfl, rfl, rfl, rfl, rfl⟩
  · intro s hs
    unfold strict_spec_format at hs
    cases hp : parseWith strictPreds s.toList with
    | none => rw [hp] at hs; simp at hs
    | some dt =>
      unfold convert_utc_to_est
      rw [strict_implies_lenient hp]
      rfl
  · intro s r h
    unfold convert_utc_to_est at h
    cases hp : parseStrptime s with
    | none => rw [hp] at h; cases h
    | some dt =>
      rw [hp] at h
      dsimp only at h
      obtain ⟨hh23, hm59⟩ := parseStrptime_hour_minute hp
      refine ⟨(subHours dt (if inEasternDST dt then 4 else 5)).hour, dt.minute,
        subHours_hour_le (by split <;> omega) hh23, hm59, ?_⟩
      injection h with h'
      rw [← h', subHours_minute]

/-- C3 witness: a strict-format timestamp is accepted, and the output
has the `EST HH:MM` shape. -/
theorem C3_witness :
    strict_spec_format "2024-11-03T05:59:00Z" = true ∧
    (convert_utc_to_est "2024-11-03T05:59:00Z").isSome = true ∧
    (∃ h mi, h ≤ 23 ∧ mi ≤ 59 ∧ "EST 01:59" = "EST " ++ pad2 h ++ ":" ++ pad2 mi) :=
  ⟨rfl, C3_time_display.1 "2024-11-03T05:59:00Z" rfl,
    C3_time_display.2.1 "2024-11-03T05:59:00Z" "EST 01:59" rfl⟩

/-- C4: at every instant (of the years this job can run in), the
window starts at midnight UTC of the current UTC day and ends exactly
26 hours — `timedelta(days=1, hours=2)` — later, both rendered in
strict `YYYY-MM-DDTHH:MM:SSZ` format: parsing the two output strings
back recovers the midnight instant and an instant whose absolute time
is 26 hours greater. -/
theorem C4_day_window (now : DateTime)
    (hy1 : 1000 ≤ now.year) (hy2 : now.year ≤ 9998)
    (hm1 : 1 ≤ now.month) (hm2 : now.month ≤ 12)
    (hd1 : 1 ≤ now.day) (hd2 : now.day ≤ daysInMonth now.year now.month) :
    ∃ start endDt : DateTime,
      parseStrptime (get_utc_start_and_end now).1 = some start ∧
      parseStrptime (get_utc_start_and_end now).2 = some endDt ∧
      strict_spec_format (get_utc_start_and_end now).1 = true ∧
      strict_spec_format (get_utc_start_and_end now).2 = true ∧
      start = ⟨now.year, now.month, now.day, 0, 0, 0⟩ ∧
      toSecs endDt = toSecs start + 26 * 3600 := by
  have hv := nextDayD_valid (show 1 ≤ now.year by omega) hm1 hm2 hd1 hd2
  have hstrict1 : parseWith strictPreds
      (renderISO ⟨now.year, now.month, now.day, 0, 0, 0⟩).toList =
      some ⟨now.year, now.month, now.day, 0, 0, 0⟩ :=
    strict_spec_format_render _ (show 1 ≤ now.year by omega)
      (show 1000 ≤ now.year by omega) (show now.year ≤ 9999 by omega) hm1 hm2 hd1 hd2
      (show (0 : Nat) ≤ 23 by omega) (show (0 : Nat) ≤ 59 by omega)
      (show (0 : Nat) ≤ 59 by omega)
  have hstrict2 : parseWith strictPreds
      (renderISO ⟨(nextDayD (now.year, now.month, now.day)).1,
        (nextDayD (now.year, now.month, now.day)).2.1,
        (nextDayD (now.year, now.month, now.day)).2.2, 2, 0, 0⟩).toList =
      some ⟨(nextDayD (now.year, now.month, now.day)).1,
        (nextDayD (now.year, now.month, now.day)).2.1,
        (nextDayD (now.year, now.month, now.day)).2.2, 2, 0, 0⟩ :=
    strict_spec_format_render _
      (show 1 ≤ (nextDayD (now.year, now.month, now.day)).1 by omega)
      (show 1000 ≤ (nextDayD (now.year, now.month, now.day)).1 by omega)
      (show (nextDayD (now.year, now.month, now.day)).1 ≤ 9999 by omega)
      hv.2.2.1 hv.2.2.2.1 hv.2.2.2.2.1 hv.2.2.2.2.2
      (show (2 : Nat) ≤ 23 by omega) (show (0 : Nat) ≤ 59 by omega)
      (show (0 : Nat) ≤ 59 by omega)
  have he : get_utc_start_and_end now =
      (renderISO ⟨now.year, now.month, now.day, 0, 0, 0⟩,
        renderISO ⟨(nextDayD (now.year, now.month, now.day)).1,
          (nextDayD (now.year, now.month, now.day)).2.1,
          (nextDayD (now.year, now.month, now.day)).2.2, 2, 0, 0⟩) := by
    unfold get_utc_start_and_end addHours
    norm_num
  rw [he]
  dsimp only
  refine ⟨⟨now.year, now.month, now.day, 0, 0, 0⟩,
    ⟨(nextDayD (now.year, now.month, now.day)).1,
      (nextDayD (now.year, now.month, now.day)).2.1,
      (nextDayD (now.year, now.month, now.day)).2.2, 2, 0, 0⟩,
    strict_implies_lenient hstrict1, strict_implies_lenient hstrict2, ?_, ?_, rfl, ?_⟩
  · unfold strict_spec_format
    rw [hstrict1]
    rfl
  · unfold strict_spec_format
    rw [hstrict2]
    rfl
  · have hstep := toDaysI_nextDay (show 1 ≤ now.year by omega) hm1 hm2 hd1 hd2
    unfold toSecs
    dsimp only
    rw [hstep]
    ring

/-- C4 witness: called at `2024-01-01T00:00:00Z` the window is exactly
the pair the spec gives. -/
theorem C4_witness :
    get_utc_start_and_end ⟨2024, 1, 1, 0, 0, 0⟩ =
      ("2024-01-01T00:00:00Z", "2024-01-02T02:00:00Z") ∧
    (∃ start endDt : DateTime,
      parseStrptime (get_utc_start_and_end ⟨2024, 1, 1, 0, 0, 0⟩).1 = some start ∧
      parseStrptime (get_utc_start_and_end ⟨2024, 1, 1, 0, 0, 0⟩).2 = some endDt ∧
      strict_spec_format (get_utc_start_and_end ⟨2024, 1, 1, 0, 0, 0⟩).1 = true ∧
      strict_spec_format (get_utc_start_and_end ⟨2024, 1, 1, 0, 0, 0⟩).2 = true ∧
      start = ⟨2024, 1, 1, 0, 0, 0⟩ ∧
      toSecs endDt = toSecs start + 26 * 3600) :=
  ⟨rfl, C4_day_window ⟨2024, 1, 1, 0, 0, 0⟩ (by decide) (by decide) (by decide) (by decide)
    (by decide) (by decide)⟩

end MLBFetch
